import Mathlib

/-!
Verification of the viewport-driven document-renderer core of the
AI-pdf-viewer repository: the viewport calculator
(src/hooks/useVirtualScroll.ts), the page object cache
(src/services/pdfService.ts), the surface pool
(src/services/canvasPool.ts) and the page render path of the viewer
component.  Scroll offsets, viewport extents and page extents are
JavaScript numbers; we embed them as exact rationals, and page counts
and overscan as integers.
-/

namespace AIPdfViewer

/-! ### Viewport calculator — src/hooks/useVirtualScroll.ts

`handleScroll` (lines 51-85) reads `scrollTop` and the viewport height
from the container and computes the visible page range and the current
page.  The arithmetic below is a direct transcription of lines 65-81;
`Math.floor`/`Math.ceil` become the integer floor/ceil of rationals. -/

structure ViewportState where
  start : ℤ
  stop : ℤ
  currentPage : ℤ
deriving DecidableEq, Repr

def handleScroll (scrollTop viewportHeight pageHeight : ℚ)
    (overscan totalPages : ℤ) : ViewportState :=
  let start := max 0 (⌊scrollTop / pageHeight⌋ - overscan)
  let stop := min totalPages (⌈(scrollTop + viewportHeight) / pageHeight⌉ + overscan)
  let visibleCenter := scrollTop + viewportHeight / 2
  let currentPageNumber := max 1 (min ⌈visibleCenter / pageHeight⌉ totalPages)
  ⟨start, stop, currentPageNumber⟩

/-- The initial `visibleRange` state of `useVirtualScroll`
(lines 25-28): `{start: 0, end: Math.min(overscan * 2, totalPages)}`. -/
def initialVisibleRange (overscan totalPages : ℤ) : ℤ × ℤ :=
  (0, min (overscan * 2) totalPages)

/-! Helper facts about the floor/ceil arithmetic of `handleScroll`. -/

lemma floor_div_le_of_le_mul {s p : ℚ} {T : ℤ} (hp : 0 < p) (h : s ≤ T * p) :
    ⌊s / p⌋ ≤ T := by
  have h1 : s / p ≤ (T : ℚ) := by rw [div_le_iff₀ hp]; exact h
  have h2 : (⌊s / p⌋ : ℚ) ≤ (T : ℚ) := le_trans (Int.floor_le _) h1
  exact_mod_cast h2

lemma floor_le_ceil_shift {s vh p : ℚ} (hp : 0 < p) (hvh : 0 ≤ vh) :
    ⌊s / p⌋ ≤ ⌈(s + vh) / p⌉ := by
  have h1 : s / p ≤ (s + vh) / p := by gcongr; linarith
  have h2 : (⌊s / p⌋ : ℚ) ≤ (⌈(s + vh) / p⌉ : ℚ) :=
    le_trans (Int.floor_le _) (le_trans h1 (Int.le_ceil _))
  exact_mod_cast h2

lemma totalPages_nonneg_of_scroll {s p : ℚ} {T : ℤ} (hs : 0 ≤ s) (hp : 0 < p)
    (h : s ≤ T * p) : 0 ≤ T := by
  have h1 : (0 : ℚ) ≤ (T : ℚ) * p / p := div_nonneg (le_trans hs h) hp.le
  have h2 : ((T : ℚ) * p) / p = (T : ℚ) := mul_div_cancel_right₀ _ (ne_of_gt hp)
  rw [h2] at h1
  exact_mod_cast h1

/-- C1 (counterexample): the claim asserts that whenever `totalPages = 0`
the calculation returns `visibleRange = {0, 0}` and `currentPage = 1` for
every scroll sample; but at `scrollOffset = 4000`, `viewportExtent = 800`,
`pageExtent = 800`, `overscan = 2`, `totalPages = 0` the code returns
`start = max(0, 5 − 2) = 3`, not `0`. -/
theorem c1_counterexample : handleScroll 4000 800 800 2 0 ≠ ⟨0, 0, 1⟩ := by
  have h1 : (⌊(4000 : ℚ) / 800⌋ : ℤ) = 5 := by (rw [Int.floor_eq_iff]; norm_num)
  have h2 : (⌈((4000 : ℚ) + 800) / 800⌉ : ℤ) = 6 := by (rw [Int.ceil_eq_iff]; norm_num)
  have h3 : (⌈((4000 : ℚ) + 800 / 2) / 800⌉ : ℤ) = 6 := by (rw [Int.ceil_eq_iff]; norm_num)
  have hval : handleScroll 4000 800 800 2 0 = ⟨3, 0, 1⟩ := by
    simp only [handleScroll, h1, h2, h3]; decide
  rw [hval]; decide

/-- C1 (amended): for every scroll sample the calculation returns exactly
`start = max(0, ⌊scrollOffset/pageExtent⌋ − overscan)`,
`end = min(totalPages, ⌈(scrollOffset+viewportExtent)/pageExtent⌉ + overscan)`
and `currentPage = clamp(⌈(scrollOffset+viewportExtent/2)/pageExtent⌉, 1, totalPages)`;
and when `totalPages = 0` the triple `{0, 0}, 1` results only under the
side condition `⌊scrollOffset/pageExtent⌋ ≤ overscan` (in particular at
scroll offset `0`), not for every sample. -/
theorem c1_viewport_formulas (scrollTop viewportHeight pageHeight : ℚ)
    (overscan totalPages : ℤ) :
    handleScroll scrollTop viewportHeight pageHeight overscan totalPages =
      ⟨max 0 (⌊scrollTop / pageHeight⌋ - overscan),
       min totalPages (⌈(scrollTop + viewportHeight) / pageHeight⌉ + overscan),
       max 1 (min ⌈(scrollTop + viewportHeight / 2) / pageHeight⌉ totalPages)⟩ ∧
    (0 ≤ scrollTop → 0 ≤ viewportHeight → 0 < pageHeight → 0 ≤ overscan →
      totalPages = 0 → ⌊scrollTop / pageHeight⌋ ≤ overscan →
      handleScroll scrollTop viewportHeight pageHeight overscan totalPages = ⟨0, 0, 1⟩) := by
  constructor
  · rfl
  · intro hs hvh hp hov hT hf
    subst hT
    have hc : (0 : ℤ) ≤ ⌈(scrollTop + viewportHeight) / pageHeight⌉ :=
      Int.ceil_nonneg (div_nonneg (by linarith) hp.le)
    have hmin : min ⌈(scrollTop + viewportHeight / 2) / pageHeight⌉ (0 : ℤ) ≤ 0 :=
      min_le_right _ _
    simp only [handleScroll, ViewportState.mk.injEq]
    refine ⟨by omega, by omega, by omega⟩

theorem c1_viewport_formulas_witness :
    handleScroll 0 800 800 2 0 = ⟨0, 0, 1⟩ :=
  (c1_viewport_formulas 0 800 800 2 0).2 (by norm_num) (by norm_num) (by norm_num)
    (by norm_num) rfl (by norm_num)

/-- C6 (counterexample): for the 100-page document at scroll offset 4000
(page extent 800, viewport extent 800, overscan 2) the code does not
return `visibleRange = {3, 9}`: the end bound is
`min(100, ⌈4800/800⌉ + 2) = 8`. -/
theorem c6_counterexample : handleScroll 4000 800 800 2 100 ≠ ⟨3, 9, 6⟩ := by
  have h1 : (⌊(4000 : ℚ) / 800⌋ : ℤ) = 5 := by (rw [Int.floor_eq_iff]; norm_num)
  have h2 : (⌈((4000 : ℚ) + 800) / 800⌉ : ℤ) = 6 := by (rw [Int.ceil_eq_iff]; norm_num)
  have h3 : (⌈((4000 : ℚ) + 800 / 2) / 800⌉ : ℤ) = 6 := by (rw [Int.ceil_eq_iff]; norm_num)
  have hval : handleScroll 4000 800 800 2 100 = ⟨3, 8, 6⟩ := by
    simp only [handleScroll, h1, h2, h3]; decide
  rw [hval]; decide

/-- C6 (amended): for a 100-page document with page extent 800, overscan 2,
viewport extent 800 and scroll offset 4000 the viewport calculation yields
`visibleRange = {3, 8}` and `currentPage = 6`. -/
theorem c6_scenario : handleScroll 4000 800 800 2 100 = ⟨3, 8, 6⟩ := by
  have h1 : (⌊(4000 : ℚ) / 800⌋ : ℤ) = 5 := by (rw [Int.floor_eq_iff]; norm_num)
  have h2 : (⌈((4000 : ℚ) + 800) / 800⌉ : ℤ) = 6 := by (rw [Int.ceil_eq_iff]; norm_num)
  have h3 : (⌈((4000 : ℚ) + 800 / 2) / 800⌉ : ℤ) = 6 := by (rw [Int.ceil_eq_iff]; norm_num)
  simp only [handleScroll, h1, h2, h3]; decide

/-- C7 (counterexample): at scroll offset 0 on a 100-page document
(page extent 800, viewport extent 800, overscan 2) the range is `{0, 3}`,
so `end − start = 3 < 4 = 2·overscan` even though `totalPages > 0`: the
claimed conjunction fails. -/
theorem c7_counterexample :
    ¬ (0 ≤ (handleScroll 0 800 800 2 100).start ∧
       (handleScroll 0 800 800 2 100).start ≤ (handleScroll 0 800 800 2 100).stop ∧
       (handleScroll 0 800 800 2 100).stop ≤ 100 ∧
       ((0 : ℤ) < 100 →
         2 * 2 ≤ (handleScroll 0 800 800 2 100).stop - (handleScroll 0 800 800 2 100).start)) := by
  have h1 : (⌊(0 : ℚ) / 800⌋ : ℤ) = 0 := by (rw [Int.floor_eq_iff]; norm_num)
  have h2 : (⌈((0 : ℚ) + 800) / 800⌉ : ℤ) = 1 := by (rw [Int.ceil_eq_iff]; norm_num)
  have h3 : (⌈((0 : ℚ) + 800 / 2) / 800⌉ : ℤ) = 1 := by (rw [Int.ceil_eq_iff]; norm_num)
  have hval : handleScroll 0 800 800 2 100 = ⟨0, 3, 1⟩ := by
    simp only [handleScroll, h1, h2, h3]; decide
  rw [hval]; decide

/-- C7 (amended): whenever the scroll offset lies within the document
(`scrollOffset ≤ totalPages·pageExtent`, with nonnegative offset,
viewport extent and overscan and positive page extent), the range of
`handleScroll` satisfies `0 ≤ start ≤ end ≤ totalPages`; the width bound
`end − start ≥ 2·overscan` holds only when the overscanned window lies
inside the document (`overscan ≤ ⌊scrollOffset/pageExtent⌋` and
`⌈(scrollOffset+viewportExtent)/pageExtent⌉ + overscan ≤ totalPages`);
the initial visible range of `useVirtualScroll` also satisfies
`0 ≤ start ≤ end ≤ totalPages`. -/
theorem c7_range_invariant (scrollTop viewportHeight pageHeight : ℚ)
    (overscan totalPages : ℤ)
    (hs : 0 ≤ scrollTop) (hvh : 0 ≤ viewportHeight) (hp : 0 < pageHeight)
    (hov : 0 ≤ overscan) (hdoc : scrollTop ≤ totalPages * pageHeight) :
    (0 ≤ (handleScroll scrollTop viewportHeight pageHeight overscan totalPages).start ∧
     (handleScroll scrollTop viewportHeight pageHeight overscan totalPages).start ≤
       (handleScroll scrollTop viewportHeight pageHeight overscan totalPages).stop ∧
     (handleScroll scrollTop viewportHeight pageHeight overscan totalPages).stop ≤ totalPages) ∧
    (overscan ≤ ⌊scrollTop / pageHeight⌋ →
     ⌈(scrollTop + viewportHeight) / pageHeight⌉ + overscan ≤ totalPages →
     2 * overscan ≤
       (handleScroll scrollTop viewportHeight pageHeight overscan totalPages).stop -
       (handleScroll scrollTop viewportHeight pageHeight overscan totalPages).start) ∧
    (0 ≤ (initialVisibleRange overscan totalPages).1 ∧
     (initialVisibleRange overscan totalPages).1 ≤ (initialVisibleRange overscan totalPages).2 ∧
     (initialVisibleRange overscan totalPages).2 ≤ totalPages) := by
  have hT : 0 ≤ totalPages := totalPages_nonneg_of_scroll hs hp hdoc
  have hfT : ⌊scrollTop / pageHeight⌋ ≤ totalPages := floor_div_le_of_le_mul hp hdoc
  have hfc : ⌊scrollTop / pageHeight⌋ ≤ ⌈(scrollTop + viewportHeight) / pageHeight⌉ :=
    floor_le_ceil_shift hp hvh
  have hc : (0 : ℤ) ≤ ⌈(scrollTop + viewportHeight) / pageHeight⌉ :=
    Int.ceil_nonneg (div_nonneg (by linarith) hp.le)
  simp only [handleScroll, initialVisibleRange]
  refine ⟨⟨by omega, by omega, by omega⟩, fun hof hct => by omega, by omega, by omega, by omega⟩

theorem c7_range_invariant_witness :
    0 ≤ (handleScroll 4000 800 800 2 100).start ∧
    (handleScroll 4000 800 800 2 100).start ≤ (handleScroll 4000 800 800 2 100).stop ∧
    (handleScroll 4000 800 800 2 100).stop ≤ 100 :=
  (c7_range_invariant 4000 800 800 2 100 (by norm_num) (by norm_num) (by norm_num)
    (by norm_num) (by norm_num)).1

/-! ### Page object cache — src/services/pdfService.ts

`PDFService` keeps `pageCache: Map<number, PDFPageProxy>`.  A JavaScript
`Map` iterates in insertion order, `get` does not reorder entries,
`set` on a fresh key appends, and `keys().next().value` is the
first-inserted key.  We embed the map as an association list in
insertion order. -/

inductive PDFError where
  | documentNotLoaded
  | pageOutOfRange
deriving DecidableEq, Repr

/-- Opaque page handle returned by the external renderer
(`pdfjs-dist`); for a fixed document, `document.getPage(n)` resolves to
the handle for page `n`. -/
structure PDFPageProxy where
  pageNumber : ℕ
deriving DecidableEq, Repr

structure PDFDocumentProxy where
  numPages : ℕ
deriving DecidableEq, Repr

/-- The external engine's `document.getPage(n)`: resolves for
`1 ≤ n ≤ numPages`, rejects otherwise. -/
def docGetPage (d : PDFDocumentProxy) (n : ℕ) : Except PDFError PDFPageProxy :=
  if 1 ≤ n ∧ n ≤ d.numPages then .ok ⟨n⟩ else .error .pageOutOfRange

/-- `Map.get`: first entry with the given key (keys are unique). -/
def mapGet {α : Type} : List (ℕ × α) → ℕ → Option α
  | [], _ => none
  | e :: rest, k => if e.1 = k then some e.2 else mapGet rest k

/-- `Map.set`: replaces the value in place if the key is present
(keeping its position in insertion order), otherwise appends. -/
def mapSet {α : Type} : List (ℕ × α) → ℕ → α → List (ℕ × α)
  | [], k, v => [(k, v)]
  | e :: rest, k, v => if e.1 = k then (k, v) :: rest else e :: mapSet rest k v

structure PDFServiceState where
  document : Option PDFDocumentProxy
  pageCache : List (ℕ × PDFPageProxy)
  maxCacheSize : ℕ
deriving DecidableEq, Repr

/-- The service as constructed (`new PDFService()`): no document, empty
cache, `maxCacheSize = 20`. -/
def initialPDFService : PDFServiceState :=
  { document := none, pageCache := [], maxCacheSize := 20 }

/-- `PDFService.getPage` (lines 41-62): throws `Document not loaded`
with the cache untouched when no document is active; returns the cached
handle on a hit; otherwise obtains the handle from the engine, deletes
the first-inserted key when `size >= maxCacheSize` (the `typeof`
guard skips the delete on an empty cache), and inserts the new entry. -/
def getPage (s : PDFServiceState) (n : ℕ) :
    Except PDFError PDFPageProxy × PDFServiceState :=
  match s.document with
  | none => (.error .documentNotLoaded, s)
  | some doc =>
    match mapGet s.pageCache n with
    | some cachedPage => (.ok cachedPage, s)
    | none =>
      match docGetPage doc n with
      | .error e => (.error e, s)
      | .ok page =>
        let cache1 := if s.maxCacheSize ≤ s.pageCache.length then
            s.pageCache.tail else s.pageCache
        (.ok page, { s with pageCache := mapSet cache1 n page })

/-- A sequence of `getPage` calls, threading the service state. -/
def getPageSeq (s : PDFServiceState) : List ℕ → PDFServiceState
  | [] => s
  | n :: rest => getPageSeq (getPage s n).2 rest

lemma mapGet_none_mapSet {α : Type} (m : List (ℕ × α)) (k : ℕ) (v : α)
    (h : mapGet m k = none) : mapSet m k v = m ++ [(k, v)] := by
  induction m with
  | nil => rfl
  | cons e rest ih =>
    simp only [mapGet] at h
    by_cases hk : e.1 = k
    · simp [hk] at h
    · simp only [mapSet, if_neg hk, List.cons_append, List.cons.injEq, true_and]
      exact ih (by simpa [hk] using h)

lemma mapGet_tail_none {α : Type} (m : List (ℕ × α)) (k : ℕ)
    (h : mapGet m k = none) : mapGet m.tail k = none := by
  cases m with
  | nil => rfl
  | cons e rest =>
    simp only [mapGet] at h
    by_cases hk : e.1 = k
    · simp [hk] at h
    · simpa [hk] using h

lemma length_mapSet_of_none {α : Type} (m : List (ℕ × α)) (k : ℕ) (v : α)
    (h : mapGet m k = none) : (mapSet m k v).length = m.length + 1 := by
  rw [mapGet_none_mapSet m k v h]
  simp

lemma getPage_maxCacheSize (s : PDFServiceState) (n : ℕ) :
    (getPage s n).2.maxCacheSize = s.maxCacheSize := by
  cases hdoc : s.document with
  | none => simp [getPage, hdoc]
  | some doc =>
    cases hget : mapGet s.pageCache n with
    | some pg => simp [getPage, hdoc, hget]
    | none =>
      cases hpg : docGetPage doc n with
      | error e => simp [getPage, hdoc, hget, hpg]
      | ok page => simp [getPage, hdoc, hget, hpg]

lemma getPage_cache_length (s : PDFServiceState) (n : ℕ)
    (hmax : 1 ≤ s.maxCacheSize) (hlen : s.pageCache.length ≤ s.maxCacheSize) :
    (getPage s n).2.pageCache.length ≤ s.maxCacheSize := by
  cases hdoc : s.document with
  | none => simpa [getPage, hdoc] using hlen
  | some doc =>
    cases hget : mapGet s.pageCache n with
    | some pg => simpa [getPage, hdoc, hget] using hlen
    | none =>
      cases hpg : docGetPage doc n with
      | error e => simpa [getPage, hdoc, hget, hpg] using hlen
      | ok page =>
        simp only [getPage, hdoc, hget, hpg]
        by_cases hcap : s.maxCacheSize ≤ s.pageCache.length
        · rw [if_pos hcap,
            length_mapSet_of_none _ _ _ (mapGet_tail_none _ _ hget)]
          rw [List.length_tail]
          omega
        · rw [if_neg hcap, length_mapSet_of_none _ _ _ hget]
          omega

/-- C2: from any state whose cache respects its configured maximum
(with a positive maximum; the code's only configuration is 20), every
sequence of `getPage` calls keeps `pageCache.size ≤ maxCacheSize` after
each call, and a miss arriving at capacity evicts the first-inserted
entry before appending the new handle. -/
theorem c2_cache_capacity (s : PDFServiceState) (ns : List ℕ)
    (hmax : 1 ≤ s.maxCacheSize) (hlen : s.pageCache.length ≤ s.maxCacheSize) :
    ((getPageSeq s ns).pageCache.length ≤ (getPageSeq s ns).maxCacheSize) ∧
    (∀ d pg n, s.document = some d → mapGet s.pageCache n = none →
      docGetPage d n = .ok pg → s.maxCacheSize ≤ s.pageCache.length →
      (getPage s n).2.pageCache = s.pageCache.tail ++ [(n, pg)]) := by
  constructor
  · induction ns generalizing s with
    | nil => exact hlen.trans_eq rfl
    | cons n rest ih =>
      have h1 := getPage_maxCacheSize s n
      have h2 := getPage_cache_length s n hmax hlen
      exact ih (getPage s n).2 (h1.symm ▸ hmax) (h1.symm ▸ h2)
  · intro d pg n hdoc hget hpg hcap
    unfold getPage
    rw [hdoc]
    simp only [hget, hpg, if_pos hcap]
    exact mapGet_none_mapSet _ _ _ (mapGet_tail_none _ _ hget)

/-- A freshly-loaded 10-page document with an empty cache. -/
def demoLoadedService : PDFServiceState := ⟨some ⟨10⟩, [], 20⟩

/-- A loaded 10-page document whose cache holds pages 1 and 2 at
capacity 2 (capacity taken below the clamp range purely to exercise the
eviction branch on a small example). -/
def demoFullService : PDFServiceState := ⟨some ⟨10⟩, [(1, ⟨1⟩), (2, ⟨2⟩)], 2⟩

/-- A service with no active document but a stale cache entry. -/
def demoUnloadedService : PDFServiceState := ⟨none, [(1, ⟨1⟩)], 20⟩

theorem c2_cache_capacity_witness :
    (getPageSeq demoLoadedService [1, 2, 3, 1, 4]).pageCache.length ≤
      (getPageSeq demoLoadedService [1, 2, 3, 1, 4]).maxCacheSize :=
  (c2_cache_capacity demoLoadedService [1, 2, 3, 1, 4] (by decide) (by decide)).1

/-- C4: the eviction queue is ordered purely by insertion: a cache hit
returns the cached handle and leaves the whole service state (hence the
eviction order) unchanged, and a miss arriving at capacity evicts
exactly the first-inserted (head) entry, appending the new one at the
back. -/
theorem c4_fifo_eviction (s : PDFServiceState) (n : ℕ) :
    (∀ d pg, s.document = some d → mapGet s.pageCache n = some pg →
      getPage s n = (.ok pg, s)) ∧
    (∀ d pg, s.document = some d → mapGet s.pageCache n = none →
      docGetPage d n = .ok pg → s.maxCacheSize ≤ s.pageCache.length →
      (getPage s n).2.pageCache = s.pageCache.tail ++ [(n, pg)]) := by
  constructor
  · intro d pg hdoc hget
    unfold getPage
    rw [hdoc]
    simp [hget]
  · intro d pg hdoc hget hpg hcap
    unfold getPage
    rw [hdoc]
    simp only [hget, hpg, if_pos hcap]
    exact mapGet_none_mapSet _ _ _ (mapGet_tail_none _ _ hget)

theorem c4_fifo_eviction_witness :
    getPage demoFullService 1 = (.ok ⟨1⟩, demoFullService) ∧
    (getPage demoFullService 3).2.pageCache = [(2, ⟨2⟩), (3, ⟨3⟩)] :=
  ⟨(c4_fifo_eviction demoFullService 1).1 ⟨10⟩ ⟨1⟩ rfl (by decide),
   (c4_fifo_eviction demoFullService 3).2 ⟨10⟩ ⟨3⟩ rfl (by decide) rfl (by decide)⟩

/-- C9: a `getPage` call while no document handle is active fails with
the document-not-loaded error and returns the service state unchanged —
no cache entry is inserted or evicted. -/
theorem c9_not_loaded (s : PDFServiceState) (n : ℕ) (h : s.document = none) :
    getPage s n = (.error .documentNotLoaded, s) := by
  unfold getPage
  rw [h]

theorem c9_not_loaded_witness :
    getPage demoUnloadedService 7 = (.error .documentNotLoaded, demoUnloadedService) :=
  c9_not_loaded demoUnloadedService 7 rfl

/-- Modelled from the spec: `setCapacity(n)` clamps `n` to `[5, 50]` and,
if the new capacity is smaller than the current occupancy, evicts the
excess entries immediately (oldest-inserted first).  The repository's
tests (`src/services/__tests__/pdfService.test.ts`, `setMaxCacheSize`
block) call `pdfService.setMaxCacheSize` and observe the clamped
`maxSize`, but no implementation of this method is present in the
repository source. -/
def setMaxCacheSize (s : PDFServiceState) (n : ℕ) : PDFServiceState :=
  let clamped := min 50 (max 5 n)
  { s with maxCacheSize := clamped,
           pageCache := s.pageCache.drop (s.pageCache.length - clamped) }

/-- C8: after `setMaxCacheSize n` the reported maximum is
`min 50 (max 5 n)` — in particular `2 ↦ 5` and `100 ↦ 50` — and the
cache occupancy is at most the new maximum (excess entries are evicted
immediately). -/
theorem c8_capacity_clamp (s : PDFServiceState) (n : ℕ) :
    (setMaxCacheSize s n).maxCacheSize = min 50 (max 5 n) ∧
    (setMaxCacheSize s 2).maxCacheSize = 5 ∧
    (setMaxCacheSize s 100).maxCacheSize = 50 ∧
    (setMaxCacheSize s n).pageCache.length ≤ min 50 (max 5 n) := by
  refine ⟨rfl, rfl, rfl, ?_⟩
  simp only [setMaxCacheSize, List.length_drop]
  omega

/-! ### Surface pool — src/services/canvasPool.ts

A canvas is a fixed-identity drawing target; assigning `canvas.width`
or `canvas.height` resets its pixel buffer (per the HTML canvas
semantics the code relies on), and `clearRect(0, 0, width, height)`
zeroes the whole buffer.  We model the buffer as a row-major list of
pixel values of length `width * height`, and give each canvas an `id`
so that "the same canvas came back" is expressible; `nextId` in the
pool state numbers the canvases `document.createElement` would make. -/

structure Canvas where
  id : ℕ
  width : ℕ
  height : ℕ
  pixels : List ℕ
deriving DecidableEq, Repr

/-- `canvas.width = w`: sets the width and resets the buffer. -/
def setCanvasWidth (c : Canvas) (w : ℕ) : Canvas :=
  { c with width := w, pixels := List.replicate (w * c.height) 0 }

/-- `canvas.height = h`: sets the height and resets the buffer. -/
def setCanvasHeight (c : Canvas) (h : ℕ) : Canvas :=
  { c with height := h, pixels := List.replicate (c.width * h) 0 }

/-- `ctx.clearRect(0, 0, canvas.width, canvas.height)`. -/
def clearRect (c : Canvas) : Canvas :=
  { c with pixels := List.replicate (c.width * c.height) 0 }

/-- `document.createElement('canvas')`: a fresh blank 300×150 canvas. -/
def createElementCanvas (id : ℕ) : Canvas :=
  ⟨id, 300, 150, List.replicate (300 * 150) 0⟩

structure CanvasPoolMetrics where
  totalAcquired : ℕ
  totalReleased : ℕ
  currentPoolSize : ℕ
  cacheHits : ℕ
  cacheMisses : ℕ
deriving DecidableEq, Repr

structure CanvasPoolState where
  pool : List Canvas
  maxSize : ℕ
  metrics : CanvasPoolMetrics
  nextId : ℕ
deriving DecidableEq, Repr

/-- `new CanvasPool()` (line 96): empty pool, `maxSize = 20`. -/
def initialCanvasPool : CanvasPoolState :=
  ⟨[], 20, ⟨0, 0, 0, 0, 0⟩, 0⟩

/-- JavaScript truthiness of the optional `width`/`height` arguments:
`undefined` and `0` are falsy. -/
def truthyDim : Option ℕ → Bool
  | some n => n != 0
  | none => false

/-- `CanvasPool.acquire` (lines 24-50): pops the last-pushed pooled
canvas if one exists (applying both dimensions only when both are
truthy), otherwise creates a fresh canvas; updates the metrics as the
code does. -/
def acquire (s : CanvasPoolState) (w h : Option ℕ) : Canvas × CanvasPoolState :=
  let m1 := { s.metrics with totalAcquired := s.metrics.totalAcquired + 1 }
  match s.pool.getLast? with
  | some canvas =>
    let pool1 := s.pool.dropLast
    let m2 := { m1 with cacheHits := m1.cacheHits + 1, currentPoolSize := pool1.length }
    let canvas1 := if truthyDim w && truthyDim h then
        setCanvasHeight (setCanvasWidth canvas (w.getD 0)) (h.getD 0) else canvas
    (canvas1, { s with pool := pool1, metrics := m2 })
  | none =>
    let m2 := { m1 with cacheMisses := m1.cacheMisses + 1,
                        currentPoolSize := s.pool.length }
    let newCanvas := createElementCanvas s.nextId
    let newCanvas1 := if truthyDim w && truthyDim h then
        setCanvasHeight (setCanvasWidth newCanvas (w.getD 0)) (h.getD 0) else newCanvas
    (newCanvas1, { s with metrics := m2, nextId := s.nextId + 1 })

/-- `CanvasPool.release` (lines 52-68): if the pool is already at its
maximum the call returns with nothing modified; otherwise it clears the
canvas, zeroes its dimensions, pushes it and bumps the metrics.  The
returned canvas is the argument as mutated in place. -/
def release (s : CanvasPoolState) (c : Canvas) : Canvas × CanvasPoolState :=
  if s.maxSize ≤ s.pool.length then (c, s)
  else
    let c1 := setCanvasHeight (setCanvasWidth (clearRect c) 0) 0
    let pool1 := s.pool ++ [c1]
    (c1, { s with pool := pool1,
                  metrics := { s.metrics with
                    totalReleased := s.metrics.totalReleased + 1,
                    currentPoolSize := pool1.length } })

/-- An arbitrary interleaving of pool calls. -/
inductive PoolOp where
  | acquireOp (w h : Option ℕ)
  | releaseOp (c : Canvas)
deriving DecidableEq, Repr

def poolStep (s : CanvasPoolState) : PoolOp → CanvasPoolState
  | .acquireOp w h => (acquire s w h).2
  | .releaseOp c => (release s c).2

def runPool (s : CanvasPoolState) : List PoolOp → CanvasPoolState
  | [] => s
  | op :: rest => runPool (poolStep s op) rest

lemma poolStep_maxSize (s : CanvasPoolState) (op : PoolOp) :
    (poolStep s op).maxSize = s.maxSize := by
  cases op with
  | acquireOp w h =>
    simp only [poolStep, acquire]
    cases s.pool.getLast? <;> rfl
  | releaseOp c =>
    simp only [poolStep, release]
    by_cases hcap : s.maxSize ≤ s.pool.length
    · rw [if_pos hcap]
    · rw [if_neg hcap]

lemma poolStep_length (s : CanvasPoolState) (op : PoolOp)
    (hlen : s.pool.length ≤ s.maxSize) :
    (poolStep s op).pool.length ≤ s.maxSize := by
  cases op with
  | acquireOp w h =>
    simp only [poolStep, acquire]
    cases hp : s.pool.getLast? with
    | some c =>
      simp only
      calc s.pool.dropLast.length ≤ s.pool.length := by
            rw [List.length_dropLast]; omega
        _ ≤ s.maxSize := hlen
    | none => simpa using hlen
  | releaseOp c =>
    simp only [poolStep, release]
    by_cases hcap : s.maxSize ≤ s.pool.length
    · rw [if_pos hcap]; exact hlen
    · rw [if_neg hcap]
      simp only [List.length_append, List.length_cons, List.length_nil]
      omega

/-- C5: the pool length never exceeds the configured maximum over any
sequence of `acquire`/`release` calls; an `acquire` after a `release`
that pooled the canvas returns that same canvas (same identity) with
its buffer cleared and dimensions zeroed — or set to the requested
dimensions, with a cleared buffer of that size, when both are supplied
— and restores the pool, the pooled surfaces being reused LIFO (after
two pooling releases the next `acquire` hands out the second). -/
theorem c5_pool_roundtrip (s : CanvasPoolState) (c c2 : Canvas) :
    (s.pool.length ≤ s.maxSize →
      ∀ ops, (runPool s ops).pool.length ≤ (runPool s ops).maxSize) ∧
    (s.pool.length < s.maxSize →
      (acquire (release s c).2 none none).1 = ⟨c.id, 0, 0, []⟩ ∧
      (acquire (release s c).2 none none).2.pool = s.pool ∧
      ∀ w h, w ≠ 0 → h ≠ 0 →
        (acquire (release s c).2 (some w) (some h)).1 =
          ⟨c.id, w, h, List.replicate (w * h) 0⟩) ∧
    (s.pool.length + 1 < s.maxSize →
      (acquire (release (release s c).2 c2).2 none none).1 = ⟨c2.id, 0, 0, []⟩) := by
  have hrel : ∀ (t : CanvasPoolState) (d : Canvas), t.pool.length < t.maxSize →
      (release t d).2.pool = t.pool ++ [⟨d.id, 0, 0, []⟩] ∧
      (release t d).2.maxSize = t.maxSize := by
    intro t d hlt
    have hcap : ¬ t.maxSize ≤ t.pool.length := by omega
    constructor
    · simp [release, if_neg hcap, setCanvasWidth, setCanvasHeight, clearRect]
    · simp [release, if_neg hcap]
  refine ⟨?_, ?_, ?_⟩
  · intro hlen ops
    induction ops generalizing s with
    | nil => exact hlen.trans_eq rfl
    | cons op rest ih =>
      have h1 := poolStep_maxSize s op
      have h2 := poolStep_length s op hlen
      exact ih (poolStep s op) (h1.symm ▸ h2)
  · intro hlt
    obtain ⟨hpool, -⟩ := hrel s c hlt
    refine ⟨?_, ?_, ?_⟩
    · simp [acquire, hpool, List.getLast?_concat, truthyDim]
    · simp [acquire, hpool, List.getLast?_concat, List.dropLast_concat]
    · intro w h hw hh
      simp [acquire, hpool, List.getLast?_concat, truthyDim, hw, hh,
        setCanvasWidth, setCanvasHeight]
  · intro hlt
    obtain ⟨hpool1, hmax1⟩ := hrel s c (by omega)
    have hlt2 : (release s c).2.pool.length < (release s c).2.maxSize := by
      rw [hpool1, hmax1]
      simp only [List.length_append, List.length_cons, List.length_nil]
      omega
    obtain ⟨hpool2, -⟩ := hrel (release s c).2 c2 hlt2
    rw [hpool1] at hpool2
    simp [acquire, hpool2, List.getLast?_concat, truthyDim]

/-- A canvas holding rendered content, for the pool examples. -/
def demoCanvas : Canvas := ⟨5, 7, 9, [1, 2, 3]⟩

def demoCanvas2 : Canvas := ⟨6, 1, 1, [4]⟩

theorem c5_pool_roundtrip_witness :
    ((runPool initialCanvasPool
        [.releaseOp demoCanvas, .releaseOp demoCanvas2, .acquireOp none none]).pool.length ≤
      (runPool initialCanvasPool
        [.releaseOp demoCanvas, .releaseOp demoCanvas2, .acquireOp none none]).maxSize) ∧
    (acquire (release initialCanvasPool demoCanvas).2 none none).1 = ⟨5, 0, 0, []⟩ ∧
    (acquire (release initialCanvasPool demoCanvas).2 (some 4) (some 3)).1 =
      ⟨5, 4, 3, List.replicate 12 0⟩ ∧
    (acquire (release (release initialCanvasPool demoCanvas).2 demoCanvas2).2
       none none).1 = ⟨6, 0, 0, []⟩ :=
  ⟨(c5_pool_roundtrip initialCanvasPool demoCanvas demoCanvas2).1 (by decide) _,
   ((c5_pool_roundtrip initialCanvasPool demoCanvas demoCanvas2).2.1 (by decide)).1,
   ((c5_pool_roundtrip initialCanvasPool demoCanvas demoCanvas2).2.1 (by decide)).2.2
     4 3 (by decide) (by decide),
   (c5_pool_roundtrip initialCanvasPool demoCanvas demoCanvas2).2.2 (by decide)⟩

/-- C10: a `release` on a pool already holding `maxSize` surfaces
returns with nothing modified: the canvas keeps its pixel content and
dimensions, it is not pushed onto the pool, and no metric (in
particular `totalReleased`) changes. -/
theorem c10_release_full_noop (s : CanvasPoolState) (c : Canvas)
    (h : s.maxSize ≤ s.pool.length) : release s c = (c, s) := by
  unfold release
  rw [if_pos h]

/-- A pool already at its maximum size (one slot, one pooled canvas). -/
def demoFullPool : CanvasPoolState := ⟨[⟨1, 0, 0, []⟩], 1, ⟨0, 0, 1, 0, 0⟩, 2⟩

theorem c10_release_full_noop_witness :
    release demoFullPool demoCanvas = (demoCanvas, demoFullPool) :=
  c10_release_full_noop demoFullPool demoCanvas (by decide)

/-! ### Page render path — PDFViewer's `renderPage`

The viewer component's `renderPage` callback creates a fresh
`document.createElement('canvas')`, asynchronously calls
`pdfService.renderPage(pageNumber, canvas, { scale, rotation })`, and —
whenever that promise resolves — unconditionally stores the canvas in
the `renderedPages` map:
`setRenderedPages((prev) => new Map(prev).set(pageNumber, canvas))`.
There is no generation counter or staleness check, and the canvas never
goes through the surface pool.  (The `isCancelled` flag of the
`usePDFRenderer` hook only suppresses the `console.error` log; it does
not stop the render from painting the shared canvas.)  We model each
issued render as a pending request tagged with the parameters its
canvas will hold when the engine resolves it; resolving a pending
request runs the completion callback, which overwrites the map entry
for that page with that request's canvas. -/

structure RenderRequest where
  reqId : ℕ
  pageNumber : ℕ
  scale : ℚ
  rot : ℤ
deriving DecidableEq, Repr

structure ViewerState where
  nextReqId : ℕ
  pending : List RenderRequest
  renderedPages : List (ℕ × RenderRequest)
deriving DecidableEq, Repr

def initialViewer : ViewerState := ⟨0, [], []⟩

/-- `renderPage(pageNumber)` under the active `(scale, rotation)`:
creates a fresh canvas and starts an asynchronous render for it. -/
def issueRender (st : ViewerState) (pageNumber : ℕ) (scale : ℚ) (rot : ℤ) :
    ViewerState :=
  { st with nextReqId := st.nextReqId + 1,
            pending := st.pending ++ [⟨st.nextReqId, pageNumber, scale, rot⟩] }

/-- The engine resolves a pending render: the completion callback runs
`setRenderedPages((prev) => new Map(prev).set(pageNumber, canvas))` —
no staleness check, the entry for that page is overwritten whichever
request this is. -/
def resolveRender (st : ViewerState) (r : RenderRequest) : ViewerState :=
  if r ∈ st.pending then
    { st with pending := st.pending.erase r,
              renderedPages := mapSet st.renderedPages r.pageNumber r }
  else st

/-- The render whose output the UI layer displays for a page: the
request stored in `renderedPages` for it. -/
def displayedRender (st : ViewerState) (pageNumber : ℕ) : Option RenderRequest :=
  mapGet st.renderedPages pageNumber

/-- The trace of the spec's stale-render scenario with the first render
resolving after the second: request scale 1.0 for page 7, request scale
1.5 for page 7, the scale-1.5 render resolves, then the superseded
scale-1.0 render resolves. -/
def staleTrace : ViewerState :=
  resolveRender
    (resolveRender (issueRender (issueRender initialViewer 7 1 0) 7 (3 / 2) 0)
      ⟨1, 7, 3 / 2, 0⟩)
    ⟨0, 7, 1, 0⟩

/-- C3 (counterexample): in the stale-render scenario the surface the
UI ends up displaying for page 7 is the superseded scale-1.0 render,
not the most recently issued scale-1.5 one — the completion callback
overwrites the newer result because no staleness check exists. -/
theorem c3_counterexample :
    displayedRender staleTrace 7 = some ⟨0, 7, 1, 0⟩ ∧
    (⟨0, 7, 1, 0⟩ : RenderRequest).scale ≠ (3 / 2 : ℚ) := by
  have hne : (⟨0, 7, 1, 0⟩ : RenderRequest) ≠ ⟨1, 7, 3 / 2, 0⟩ := by
    simp [RenderRequest.mk.injEq]
  have hst2 : issueRender (issueRender initialViewer 7 1 0) 7 (3 / 2) 0 =
      ⟨2, [⟨0, 7, 1, 0⟩, ⟨1, 7, 3 / 2, 0⟩], []⟩ := rfl
  have hmem2 : (⟨1, 7, 3 / 2, 0⟩ : RenderRequest) ∈
      [(⟨0, 7, 1, 0⟩ : RenderRequest), ⟨1, 7, 3 / 2, 0⟩] := by simp
  have herase : [(⟨0, 7, 1, 0⟩ : RenderRequest), ⟨1, 7, 3 / 2, 0⟩].erase
      ⟨1, 7, 3 / 2, 0⟩ = [⟨0, 7, 1, 0⟩] := by
    rw [List.erase_cons_tail, List.erase_cons_head]
    simp [hne]
  have hst3 : resolveRender (⟨2, [⟨0, 7, 1, 0⟩, ⟨1, 7, 3 / 2, 0⟩], []⟩ : ViewerState)
      ⟨1, 7, 3 / 2, 0⟩ = ⟨2, [⟨0, 7, 1, 0⟩], [(7, ⟨1, 7, 3 / 2, 0⟩)]⟩ := by
    unfold resolveRender
    rw [if_pos hmem2, herase]
    rfl
  have hmem1 : (⟨0, 7, 1, 0⟩ : RenderRequest) ∈ [(⟨0, 7, 1, 0⟩ : RenderRequest)] := by
    simp
  have hst4 : resolveRender (⟨2, [⟨0, 7, 1, 0⟩], [(7, ⟨1, 7, 3 / 2, 0⟩)]⟩ : ViewerState)
      ⟨0, 7, 1, 0⟩ = ⟨2, [], [(7, ⟨0, 7, 1, 0⟩)]⟩ := by
    unfold resolveRender
    rw [if_pos hmem1, List.erase_cons_head]
    rfl
  constructor
  · unfold staleTrace
    rw [hst2, hst3, hst4]
    rfl
  · intro h
    norm_num at h

lemma mapGet_mapSet_self {α : Type} (m : List (ℕ × α)) (k : ℕ) (v : α) :
    mapGet (mapSet m k v) k = some v := by
  induction m with
  | nil => simp [mapGet, mapSet]
  | cons e rest ih =>
    by_cases hk : e.1 = k
    · simp [mapGet, mapSet, hk]
    · simp [mapGet, mapSet, hk, ih]

/-- C3 (amended): the render path is last-resolved-wins, not
last-request-wins: whenever a pending render request resolves — however
stale — its output becomes the displayed surface for its page,
overwriting any newer result; a superseded render's canvas is never
routed back to the surface pool (the render path allocates fresh
canvases and never calls the pool). -/
theorem c3_last_resolved_wins (st : ViewerState) (r : RenderRequest)
    (h : r ∈ st.pending) :
    displayedRender (resolveRender st r) r.pageNumber = some r := by
  unfold displayedRender resolveRender
  rw [if_pos h]
  exact mapGet_mapSet_self _ _ _

theorem c3_last_resolved_wins_witness :
    displayedRender
      (resolveRender (issueRender (issueRender initialViewer 7 1 0) 7 (3 / 2) 0)
        ⟨1, 7, 3 / 2, 0⟩) 7 = some ⟨1, 7, 3 / 2, 0⟩ :=
  c3_last_resolved_wins
    (issueRender (issueRender initialViewer 7 1 0) 7 (3 / 2) 0)
    ⟨1, 7, 3 / 2, 0⟩ (by simp [issueRender, initialViewer])

end AIPdfViewer
